import Mathlib

/-!
Verification of the calendar month-navigation and date-range iteration logic
of the `BoatsetterClient` browser-automation client
(`src/lib/boatsetter-client.ts`).

The embedding models the two methods with algorithmic content:

* `navigateToMonth` (source lines 345-416): reading the displayed
  "Month YYYY" label, parsing it, computing the signed month delta, issuing
  next/previous-month clicks, and the final month-name containment check.
  The browser page is abstracted by a `NavEnv` oracle providing the label
  texts and the outcome (success or thrown exception) of each click; the
  model additionally records the list of navigation actions issued, which
  the source performs as UI clicks.

* `setDateRangeAvailability` (source lines 527-547): day-by-day iteration
  from a start to an end date, calling `setDateAvailability` for each day
  and aggregating a boolean success flag.  JS `Date` values are modelled by
  `CalDate` (year, 1-based month, day) with the standard Gregorian one-day
  increment that `day.setDate(day.getDate() + 1)` performs; `day <= end`
  on `Date` objects compares chronologically, i.e. lexicographically on
  (year, month, day).  The model records the list of days passed to the
  per-day operation.

JS primitive behaviour (`String.prototype.split(' ')`, `parseInt` with a
`NaN` result modelled as `none`, `Array.prototype.indexOf` returning `-1`,
`String.prototype.includes`, `x || 'default'` on falsy strings) is embedded
by the `js*`-prefixed helpers below.
-/

/-- JS `s.split(sep)` for a single-character separator: splits on every
occurrence, keeping empty fragments (`"".split(' ') = [""]`). -/
def splitChar (sep : Char) : List Char → List (List Char)
  | [] => [[]]
  | c :: cs =>
    if c = sep then [] :: splitChar sep cs
    else
      match splitChar sep cs with
      | [] => [[c]]
      | g :: gs => (c :: g) :: gs

/-- JS `s.split(' ')` on strings. -/
def jsSplitSpace (s : String) : List String :=
  (splitChar ' ' s.toList).map (fun l => String.mk l)

/-- `startsWithCh needle hay` : `hay` begins with `needle`. -/
def startsWithCh : List Char → List Char → Bool
  | [], _ => true
  | _ :: _, [] => false
  | a :: as, b :: bs => a = b && startsWithCh as bs

/-- `containsSub needle hay` : `needle` occurs contiguously in `hay`. -/
def containsSub (needle : List Char) : List Char → Bool
  | [] => needle.isEmpty
  | c :: cs => startsWithCh needle (c :: cs) || containsSub needle cs

/-- JS `s.includes(sub)`. -/
def jsIncludes (s sub : String) : Bool :=
  containsSub sub.toList s.toList

/-- Digit run folded to a number; `none` when the run is empty
(the `NaN` case of `parseInt`). -/
def parseDigits (l : List Char) : Option Nat :=
  let ds := l.takeWhile Char.isDigit
  if ds.isEmpty then none
  else some (ds.foldl (fun a c => a * 10 + (c.toNat - 48)) 0)

/-- JS `parseInt(s, 10)`: skip leading spaces, optional sign, longest digit
prefix; `none` models `NaN`. -/
def parseIntJS (s : String) : Option Int :=
  match s.toList.dropWhile (fun c => c = ' ') with
  | '-' :: rest => (parseDigits rest).map (fun n => -(n : Int))
  | '+' :: rest => (parseDigits rest).map (fun n => (n : Int))
  | rest => (parseDigits rest).map (fun n => (n : Int))

/-- JS `Array.prototype.indexOf`: index of first occurrence, `-1` if absent. -/
def jsIndexOf (l : List String) (s : String) : Int :=
  match l.findIdx? (fun x => x = s) with
  | some i => (i : Int)
  | none => -1

/-- JS `x || d` for an optional string `x` (`null`/`undefined` and `""` are
falsy). -/
def jsOrString (x : Option String) (d : String) : String :=
  match x with
  | none => d
  | some s => if s = "" then d else s

/-- The fixed month-name table `meses` of `navigateToMonth`
(source lines 355-358). -/
def meses : List String :=
  ["January", "February", "March", "April", "May", "June",
   "July", "August", "September", "October", "November", "December"]

/-- A target date as produced by a valid JS `Date`:
`getFullYear()` and `getMonth()` (0-11). -/
structure TargetDate where
  year : Int
  month : Fin 12

/-- `meses[targetDate.getMonth()]` (source line 361). -/
def targetMonthName (t : TargetDate) : String :=
  meses.getD t.month.val ""

/-- The formatted target label `` `${targetMonth} ${targetYear}` ``
(source line 363). -/
def targetMonthYearStr (t : TargetDate) : String :=
  targetMonthName t ++ " " ++ toString t.year

/-- A navigation UI action: clicking the "next month" or "previous month"
button (source lines 391 and 397). -/
inductive NavAction where
  | nextMonth
  | prevMonth
deriving DecidableEq, Repr

/-- Oracle for the browser page as `navigateToMonth` observes it:
the first and second reads of the `.Calendar-month-year` label
(`textContent` may be `null`, hence `Option String`; a read may also throw,
hence `Except`), and the outcome of the `i`-th next/previous click. -/
structure NavEnv where
  label0 : Except String (Option String)
  clickNext : Nat → Except String Unit
  clickPrev : Nat → Except String Unit
  label1 : Except String (Option String)

/-- Parse of the displayed label (source lines 377-381):
split on a space, month-name index via `indexOf` (`-1` when absent), year
via `parseInt(currentYearStr || '0', 10)` (`none` models `NaN`). -/
def parseLabel (lab : String) : Int × Option Int :=
  let parts := jsSplitSpace lab
  let currentMonth := parts.getD 0 ""
  let currentYearStr := parts.getD 1 ""
  (jsIndexOf meses (jsOrString (some currentMonth) ""),
   parseIntJS (jsOrString (some currentYearStr) "0"))

/-- The month delta of source lines 385-386:
`targetMonthIndex - currentMonthIndex + (targetYear - currentYear) * 12`. -/
def monthDiffCalc (targetYear targetMonthIndex currentMonthIndex currentYear : Int) : Int :=
  targetMonthIndex - currentMonthIndex + (targetYear - currentYear) * 12

/-- The click loop of source lines 390-393 / 396-399: perform clicks
`i, i+1, ...` for `n` iterations, stopping at the first thrown click.
Returns the actions actually performed and the exception, if any. -/
def runClicks (click : Nat → Except String Unit) (a : NavAction) :
    Nat → Nat → List NavAction × Option String
  | _, 0 => ([], none)
  | i, n + 1 =>
    match click i with
    | .error e => ([], some e)
    | .ok _ =>
      let r := runClicks click a (i + 1) n
      (a :: r.1, r.2)

/-- The final check of source lines 402-410: re-read the label and succeed
iff it contains the target month name (`newMonthYear?.includes(targetMonth)`;
a `null` label or a thrown read yields failure). The action trace `tr`
performed so far is returned alongside. -/
def finalCheck (t : TargetDate) (env : NavEnv) (tr : List NavAction) :
    Bool × List NavAction :=
  match env.label1 with
  | .error _ => (false, tr)
  | .ok none => (false, tr)
  | .ok (some newLab) => (jsIncludes newLab (targetMonthName t), tr)

/-- Body of the `try` block of `navigateToMonth` (source lines 350-415).
Every internally thrown exception is caught and converted into a `false`
result, as the source's `catch` does; the returned list is the ghost trace
of navigation actions issued. -/
def navBody (t : TargetDate) (env : NavEnv) : Bool × List NavAction :=
  match env.label0 with
  | .error _ => (false, [])
  | .ok currentMonthYear =>
    if currentMonthYear = some (targetMonthYearStr t) then (true, [])
    else
      let (currentMonthIndex, currentYear) :=
        parseLabel (jsOrString currentMonthYear "")
      match currentYear with
      | none => finalCheck t env []
      | some cy =>
        let monthDiff := monthDiffCalc t.year t.month.val currentMonthIndex cy
        if 0 < monthDiff then
          let r := runClicks env.clickNext .nextMonth 0 monthDiff.toNat
          match r.2 with
          | some _ => (false, r.1)
          | none => finalCheck t env r.1
        else if monthDiff < 0 then
          let r := runClicks env.clickPrev .prevMonth 0 (-monthDiff).toNat
          match r.2 with
          | some _ => (false, r.1)
          | none => finalCheck t env r.1
        else finalCheck t env []

/-- Message of the not-initialized precondition error
(source lines 346-348 and the identical guards of the other methods). -/
def notInitializedMsg : String :=
  "El cliente no está inicializado. Llama a initialize() primero."

/-- `navigateToMonth` (source lines 345-416): throws when the client is not
initialized (`!this.page`), otherwise runs the body, whose exceptions are
all caught. `initialized` models `this.page !== null`. -/
def navigateToMonth (initialized : Bool) (t : TargetDate) (env : NavEnv) :
    Except String (Bool × List NavAction) :=
  if initialized then .ok (navBody t env)
  else .error notInitializedMsg

/-- A calendar date as a JS `Date` holds it: `getFullYear()`, 1-based month,
day-of-month.  The bounds are the normalization invariant every JS `Date`
satisfies; they are carried in the structure so that the day-by-day loop
below terminates. -/
structure CalDate where
  year : Int
  month : Nat
  day : Nat
  month_ge : 1 ≤ month
  month_le : month ≤ 12
  day_ge : 1 ≤ day
  day_le : day ≤ 31

/-- JS `day <= end` on `Date` objects: chronological, i.e. lexicographic
comparison of (year, month, day). -/
def cdLe (a b : CalDate) : Bool :=
  a.year < b.year ||
    (a.year = b.year &&
      (a.month < b.month || (a.month = b.month && a.day ≤ b.day)))

/-- Strict chronological comparison. -/
def cdLt (a b : CalDate) : Bool :=
  a.year < b.year ||
    (a.year = b.year &&
      (a.month < b.month || (a.month = b.month && a.day < b.day)))

/-- Gregorian leap year. -/
def isLeap (y : Int) : Bool :=
  (y % 4 = 0 && y % 100 ≠ 0) || y % 400 = 0

/-- Days in a month of a given year. -/
def daysInMonth (y : Int) (m : Nat) : Nat :=
  match m with
  | 2 => if isLeap y then 29 else 28
  | 4 | 6 | 9 | 11 => 30
  | _ => 31

/-- The date denotes an actual calendar day (the structure bounds plus the
month-specific day limit). -/
def validB (d : CalDate) : Bool :=
  d.day ≤ daysInMonth d.year d.month

/-- JS `day.setDate(day.getDate() + 1)`: advance one calendar day with
Gregorian rollover. -/
def nextDay (d : CalDate) : CalDate :=
  if h : d.day < daysInMonth d.year d.month then
    { d with day := d.day + 1,
             day_ge := by omega,
             day_le := by
               have : daysInMonth d.year d.month ≤ 31 := by
                 unfold daysInMonth; split <;> first | split <;> omega | omega
               omega }
  else if h2 : d.month < 12 then
    { d with month := d.month + 1, day := 1,
             month_ge := by omega, month_le := by omega,
             day_ge := by omega, day_le := by omega }
  else
    { year := d.year + 1, month := 1, day := 1,
      month_ge := by omega, month_le := by omega,
      day_ge := by omega, day_le := by omega }

/-- Termination measure: strictly increases along `nextDay` and is monotone
along `cdLe` thanks to the structure bounds. -/
def cdMeasure (d : CalDate) : Int :=
  d.year * 500 + d.month * 40 + d.day

theorem daysInMonth_le (y : Int) (m : Nat) : daysInMonth y m ≤ 31 := by
  unfold daysInMonth; split <;> first | split <;> omega | omega

theorem daysInMonth_ge (y : Int) (m : Nat) : 28 ≤ daysInMonth y m := by
  unfold daysInMonth; split <;> first | split <;> omega | omega

theorem cdMeasure_nextDay (d : CalDate) :
    cdMeasure d + 1 ≤ cdMeasure (nextDay d) := by
  have h12 := d.month_le
  have h1 := d.month_ge
  have hd1 := d.day_ge
  have hd31 := d.day_le
  unfold nextDay cdMeasure
  split
  · simp only []
    omega
  · split
    · simp only []
      omega
    · simp only []
      omega

theorem cdLe_cdMeasure {a b : CalDate} (h : cdLe a b = true) :
    cdMeasure a ≤ cdMeasure b := by
  unfold cdLe at h
  simp only [Bool.or_eq_true, Bool.and_eq_true, decide_eq_true_eq] at h
  have := a.month_le
  have := a.month_ge
  have := a.day_le
  have := a.day_ge
  have := b.month_le
  have := b.month_ge
  have := b.day_le
  have := b.day_ge
  unfold cdMeasure
  rcases h with h | ⟨hy, h | ⟨hm, hd⟩⟩ <;> omega

/-- The day-by-day loop of `setDateRangeAvailability` (source lines
538-544): while `day <= end`, invoke the per-day operation (which may throw)
and fold its boolean into `success`, then advance one day.  Returns the
aggregate flag together with the ghost trace of days passed to the per-day
operation, or the first uncaught exception. -/
def rangeLoopE (op : CalDate → Except String Bool) (endD : CalDate)
    (day : CalDate) (success : Bool) : Except String (Bool × List CalDate) :=
  if cdLe day endD then
    match op day with
    | .error msg => .error msg
    | .ok r =>
      match rangeLoopE op endD (nextDay day) (success && r) with
      | .error msg => .error msg
      | .ok p => .ok (p.1, day :: p.2)
  else .ok (success, [])
termination_by (cdMeasure endD + 1 - cdMeasure day).toNat
decreasing_by
  have h1 := cdMeasure_nextDay day
  have h2 := cdLe_cdMeasure (by assumption : cdLe day endD = true)
  omega

/-- `setDateAvailability` (source lines 425-517) as the range loop sees it:
it throws the not-initialized error when `!this.page` (source lines
430-432); otherwise its whole body is wrapped in a `catch` that converts any
exception into a boolean, so an initialized call always yields a boolean,
abstracted here by the oracle `body` giving the per-day UI outcome. -/
def setDateAvailability (initialized : Bool) (body : CalDate → Bool)
    (d : CalDate) : Except String Bool :=
  if initialized then .ok (body d)
  else .error notInitializedMsg

/-- `setDateRangeAvailability` (source lines 527-547): no initialization
check of its own; iterates from the parsed start to the parsed end date,
calling `setDateAvailability` per day, starting from `success = true`. -/
def setDateRangeAvailability (initialized : Bool) (body : CalDate → Bool)
    (startD endD : CalDate) : Except String (Bool × List CalDate) :=
  rangeLoopE (setDateAvailability initialized body) endD startD true

/-! ### Helper lemmas -/

theorem jsOrString_some_empty (s : String) : jsOrString (some s) "" = s := by
  unfold jsOrString
  split <;> simp_all

theorem calDate_eq {a b : CalDate} (hy : a.year = b.year) (hm : a.month = b.month)
    (hd : a.day = b.day) : a = b := by
  cases a
  cases b
  simp only at hy hm hd
  subst hy
  subst hm
  subst hd
  rfl

theorem cdLe_refl (a : CalDate) : cdLe a a = true := by
  unfold cdLe
  simp

theorem cdLe_trans {a b c : CalDate} (h1 : cdLe a b = true) (h2 : cdLe b c = true) :
    cdLe a c = true := by
  unfold cdLe at *
  simp only [Bool.or_eq_true, Bool.and_eq_true, decide_eq_true_eq] at *
  omega

theorem cdLe_of_cdLt {a b : CalDate} (h : cdLt a b = true) : cdLe a b = true := by
  unfold cdLe cdLt at *
  simp only [Bool.or_eq_true, Bool.and_eq_true, decide_eq_true_eq] at *
  omega

theorem cdLt_of_cdLt_of_cdLe {a b c : CalDate} (h1 : cdLt a b = true)
    (h2 : cdLe b c = true) : cdLt a c = true := by
  unfold cdLe cdLt at *
  simp only [Bool.or_eq_true, Bool.and_eq_true, decide_eq_true_eq] at *
  omega

theorem cdEq_of_cdLe_not_cdLt {a b : CalDate} (h1 : cdLe a b = true)
    (h2 : ¬ cdLt a b = true) : a = b := by
  unfold cdLe cdLt at *
  simp only [Bool.or_eq_true, Bool.and_eq_true, decide_eq_true_eq] at *
  exact calDate_eq (by omega) (by omega) (by omega)

theorem cdLt_nextDay (d : CalDate) : cdLt d (nextDay d) = true := by
  have h12 := d.month_le
  unfold nextDay cdLt
  split
  · simp
  · split <;> simp

theorem validB_nextDay (d : CalDate) : validB (nextDay d) = true := by
  unfold validB nextDay
  split
  · next h => simp only [decide_eq_true_eq]; omega
  · split <;>
    · simp only [decide_eq_true_eq]
      have := daysInMonth_ge (nextDay d).year (nextDay d).month
      have := daysInMonth_ge d.year (d.month + 1)
      have := daysInMonth_ge (d.year + 1) 1
      omega

/-- No calendar day lies strictly between a valid date and its successor. -/
theorem nextDay_le_of_lt {d c : CalDate} (hc : validB c = true)
    (h : cdLt d c = true) : cdLe (nextDay d) c = true := by
  unfold validB at hc
  simp only [decide_eq_true_eq] at hc
  unfold cdLt at h
  simp only [Bool.or_eq_true, Bool.and_eq_true, decide_eq_true_eq] at h
  have h2c := c.month_ge
  have h3c := c.month_le
  have h2d := d.month_ge
  have hdc := c.day_ge
  unfold nextDay cdLe
  split
  · next hday =>
    simp only [Bool.or_eq_true, Bool.and_eq_true, decide_eq_true_eq]
    rcases h with h | ⟨hy, h | ⟨hm, hdd⟩⟩
    · omega
    · omega
    · right
      refine ⟨hy, Or.inr ⟨hm, ?_⟩⟩
      omega
  · next hday =>
    split
    · next hmon =>
      simp only [Bool.or_eq_true, Bool.and_eq_true, decide_eq_true_eq]
      rcases h with h | ⟨hy, h | ⟨hm, hdd⟩⟩
      · omega
      · omega
      · -- same year and month but c.day > d.day ≥ daysInMonth: contradicts validity of c
        exfalso
        rw [hy, hm] at hday
        omega
    · next hmon =>
      simp only [Bool.or_eq_true, Bool.and_eq_true, decide_eq_true_eq]
      have h12 := d.month_le
      rcases h with h | ⟨hy, h | ⟨hm, hdd⟩⟩
      · omega
      · omega
      · exfalso
        rw [hy, hm] at hday
        omega

/-- The sequence of days the range loop visits: `day, nextDay day, ...`
while `day <= end`.  Characterizes the ghost trace of `rangeLoopE`. -/
def rangeTrace (endD : CalDate) (day : CalDate) : List CalDate :=
  if cdLe day endD then day :: rangeTrace endD (nextDay day) else []
termination_by (cdMeasure endD + 1 - cdMeasure day).toNat
decreasing_by
  have h1 := cdMeasure_nextDay day
  have h2 := cdLe_cdMeasure (by assumption : cdLe day endD = true)
  omega

theorem rangeTrace_stop {endD day : CalDate} (h : cdLe day endD = false) :
    rangeTrace endD day = [] := by
  rw [rangeTrace]
  simp [h]

theorem rangeTrace_step {endD day : CalDate} (h : cdLe day endD = true) :
    rangeTrace endD day = day :: rangeTrace endD (nextDay day) := by
  rw [rangeTrace]
  simp [h]

theorem rangeLoopE_stop {op : CalDate → Except String Bool} {endD day : CalDate}
    {b : Bool} (h : cdLe day endD = false) :
    rangeLoopE op endD day b = .ok (b, []) := by
  rw [rangeLoopE]
  simp [h]

theorem rangeLoopE_step {op : CalDate → Except String Bool} {endD day : CalDate}
    {b : Bool} (h : cdLe day endD = true) :
    rangeLoopE op endD day b =
      match op day with
      | .error msg => .error msg
      | .ok r =>
        match rangeLoopE op endD (nextDay day) (b && r) with
        | .error msg => .error msg
        | .ok p => .ok (p.1, day :: p.2) := by
  rw [rangeLoopE]
  simp [h]

/-- With an initialized per-day operation the loop never throws: it returns
the fold of the per-day booleans over exactly the days of `rangeTrace`. -/
theorem rangeLoopE_pure (f : CalDate → Bool) (endD day : CalDate) (b : Bool) :
    rangeLoopE (fun x => .ok (f x)) endD day b =
      .ok (b && (rangeTrace endD day).all f, rangeTrace endD day) := by
  by_cases h : cdLe day endD = true
  · have ih := rangeLoopE_pure f endD (nextDay day) (b && f day)
    rw [rangeLoopE_step h, rangeTrace_step h]
    simp only [ih, List.all_cons, Bool.and_assoc]
  · rw [rangeLoopE_stop (by simpa using h), rangeTrace_stop (by simpa using h)]
    simp
termination_by (cdMeasure endD + 1 - cdMeasure day).toNat
decreasing_by
  have h1 := cdMeasure_nextDay day
  have h2 := cdLe_cdMeasure h
  omega

theorem mem_rangeTrace_bounds {endD day x : CalDate} (hx : x ∈ rangeTrace endD day) :
    cdLe day x = true ∧ cdLe x endD = true := by
  by_cases h : cdLe day endD = true
  · rw [rangeTrace_step h] at hx
    rcases List.mem_cons.mp hx with hx | hx
    · subst hx
      exact ⟨cdLe_refl x, h⟩
    · have ih := mem_rangeTrace_bounds hx
      exact ⟨cdLe_trans (cdLe_of_cdLt (cdLt_nextDay day)) ih.1, ih.2⟩
  · rw [rangeTrace_stop (by simpa using h)] at hx
    simp at hx
termination_by (cdMeasure endD + 1 - cdMeasure day).toNat
decreasing_by
  have h1 := cdMeasure_nextDay day
  have h2 := cdLe_cdMeasure h
  omega

theorem mem_rangeTrace_of_between {endD day x : CalDate} (hvx : validB x = true)
    (h1 : cdLe day x = true) (h2 : cdLe x endD = true) :
    x ∈ rangeTrace endD day := by
  have hde : cdLe day endD = true := cdLe_trans h1 h2
  rw [rangeTrace_step hde]
  by_cases heq : cdLt day x = true
  · exact List.mem_cons_of_mem day
      (mem_rangeTrace_of_between hvx (nextDay_le_of_lt hvx heq) h2)
  · rw [cdEq_of_cdLe_not_cdLt h1 heq]
    exact List.mem_cons_self x _
termination_by (cdMeasure endD + 1 - cdMeasure day).toNat
decreasing_by
  have h1 := cdMeasure_nextDay day
  have h2 := cdLe_cdMeasure hde
  omega

theorem rangeTrace_pairwise (endD day : CalDate) :
    List.Pairwise (fun a b => cdLt a b = true) (rangeTrace endD day) := by
  by_cases h : cdLe day endD = true
  · rw [rangeTrace_step h]
    refine List.pairwise_cons.mpr ⟨?_, rangeTrace_pairwise endD (nextDay day)⟩
    intro x hx
    exact cdLt_of_cdLt_of_cdLe (cdLt_nextDay day) (mem_rangeTrace_bounds hx).1
  · rw [rangeTrace_stop (by simpa using h)]
    exact List.Pairwise.nil
termination_by (cdMeasure endD + 1 - cdMeasure day).toNat
decreasing_by
  have h1 := cdMeasure_nextDay day
  have h2 := cdLe_cdMeasure h
  omega

theorem finalCheck_error {env : NavEnv} {msg : String} (t : TargetDate)
    (tr : List NavAction) (h1 : env.label1 = .error msg) :
    finalCheck t env tr = (false, tr) := by
  unfold finalCheck
  rw [h1]

theorem runClicks_ok {click : Nat → Except String Unit} (a : NavAction)
    (hc : ∀ j, click j = .ok ()) :
    ∀ i n, runClicks click a i n = (List.replicate n a, none) := by
  intro i n
  induction n generalizing i with
  | zero => rfl
  | succ n ih => simp [runClicks, hc i, ih, List.replicate_succ]

theorem finalCheck_trace (t : TargetDate) (env : NavEnv) (tr : List NavAction) :
    ∃ b, finalCheck t env tr = (b, tr) := by
  unfold finalCheck
  rcases env.label1 with msg | ol
  · exact ⟨false, rfl⟩
  · rcases ol with _ | newLab
    · exact ⟨false, rfl⟩
    · exact ⟨jsIncludes newLab (targetMonthName t), rfl⟩

/-- After the fast-path test fails and the label parses to month index `cmi`
and year `cy`, the body issues exactly the clicks dictated by the sign of the
month delta and hands the resulting trace to the final label check. -/
theorem navBody_parsed (t : TargetDate) (env : NavEnv) (lab : String)
    (cmi : Int) (cy : Int)
    (h0 : env.label0 = .ok (some lab))
    (hne : lab ≠ targetMonthYearStr t)
    (hparse : parseLabel lab = (cmi, some cy))
    (hnext : ∀ i, env.clickNext i = .ok ())
    (hprev : ∀ i, env.clickPrev i = .ok ()) :
    navBody t env = finalCheck t env
      (if 0 < monthDiffCalc t.year t.month.val cmi cy then
         List.replicate (monthDiffCalc t.year t.month.val cmi cy).toNat .nextMonth
       else if monthDiffCalc t.year t.month.val cmi cy < 0 then
         List.replicate (-(monthDiffCalc t.year t.month.val cmi cy)).toNat .prevMonth
       else []) := by
  unfold navBody
  rw [h0]
  simp only [jsOrString_some_empty, hparse, Option.some.injEq]
  rw [if_neg hne]
  by_cases hlt : 0 < monthDiffCalc t.year t.month.val cmi cy
  · simp only [if_pos hlt, runClicks_ok NavAction.nextMonth hnext]
  · simp only [if_neg hlt]
    by_cases hgt : monthDiffCalc t.year t.month.val cmi cy < 0
    · simp only [if_pos hgt, runClicks_ok NavAction.prevMonth hprev]
    · simp only [if_neg hgt]

/-! ### Concrete inputs used to exercise the theorems -/

/-- A benign page: both label reads yield the given texts, all clicks
succeed. -/
def envConst (l0 l1 : Option String) : NavEnv :=
  ⟨.ok l0, fun _ => .ok (), fun _ => .ok (), .ok l1⟩

/-- A page whose first label read throws. -/
def envThrowRead : NavEnv :=
  ⟨.error "read failed", fun _ => .ok (), fun _ => .ok (), .ok (some "January 2025")⟩

/-- A page whose second label read (after navigation) throws. -/
def envThrowReRead : NavEnv :=
  ⟨.ok (some "January 2025"), fun _ => .ok (), fun _ => .ok (), .error "timeout"⟩

/-- A page whose "next month" button clicks throw. -/
def envThrowClickNext : NavEnv :=
  ⟨.ok (some "January 2025"), fun _ => .error "click failed", fun _ => .ok (),
   .ok (some "January 2025")⟩

/-- A page whose "previous month" button clicks throw. -/
def envThrowClickPrev : NavEnv :=
  ⟨.ok (some "January 2025"), fun _ => .ok (), fun _ => .error "click failed",
   .ok (some "January 2025")⟩

def d20250227 : CalDate := ⟨2025, 2, 27, by decide, by decide, by decide, by decide⟩

def d20250228 : CalDate := ⟨2025, 2, 28, by decide, by decide, by decide, by decide⟩

def d20250301 : CalDate := ⟨2025, 3, 1, by decide, by decide, by decide, by decide⟩

def d20250302 : CalDate := ⟨2025, 3, 2, by decide, by decide, by decide, by decide⟩

/-! ### Claims -/

/-- C2: the month delta computed by `navigateToMonth` equals
`(targetYear - currentYear) * 12 + (targetMonthIndex - currentMonthIndex)`;
in particular January 2025 → March 2025 gives 2 (two "next month" clicks)
and January 2025 → December 2024 gives -1 (one "previous month" click). -/
theorem monthDelta_formula :
    (∀ ty tm cm cy : Int,
      monthDiffCalc ty tm cm cy = (ty - cy) * 12 + (tm - cm)) ∧
    monthDiffCalc 2025 2 0 2025 = 2 ∧
    monthDiffCalc 2024 11 0 2025 = -1 ∧
    navigateToMonth true ⟨2025, 2⟩
      (envConst (some "January 2025") (some "March 2025")) =
      .ok (true, [.nextMonth, .nextMonth]) ∧
    navigateToMonth true ⟨2024, 11⟩
      (envConst (some "January 2025") (some "December 2024")) =
      .ok (true, [.prevMonth]) :=
  ⟨fun ty tm cm cy => by unfold monthDiffCalc; ring, by decide, by decide, rfl, rfl⟩

/-- C5: when the displayed label equals the target's formatted
"Month YYYY" string, `navigateToMonth` returns `true` with zero navigation
actions. -/
theorem nav_noop_fast_path (t : TargetDate) (env : NavEnv)
    (h0 : env.label0 = .ok (some (targetMonthYearStr t))) :
    navigateToMonth true t env = .ok (true, []) := by
  simp [navigateToMonth, navBody, h0]

theorem nav_noop_fast_path_w :
    navigateToMonth true ⟨2025, 0⟩
      (envConst (some "January 2025") (some "January 2025")) = .ok (true, []) :=
  nav_noop_fast_path ⟨2025, 0⟩
    (envConst (some "January 2025") (some "January 2025")) rfl

/-- C7: on an initialized client `navigateToMonth` never propagates an
exception: it always returns a boolean; a throw while reading the label
yields `false` with no action performed; a throw while re-reading the label
after navigation yields `false`; and a throw raised by the click loop in
either direction (at any point, `runClicks` reporting some exception)
yields `false` with exactly the actions performed before the throw. -/
theorem nav_exceptions_absorbed (t : TargetDate) (env : NavEnv) :
    (∃ p, navigateToMonth true t env = .ok p) ∧
    (∀ msg, env.label0 = .error msg → navigateToMonth true t env = .ok (false, [])) ∧
    (∀ msg lab, env.label0 = .ok (some lab) → lab ≠ targetMonthYearStr t →
      (∀ i, env.clickNext i = .ok ()) → (∀ i, env.clickPrev i = .ok ()) →
      env.label1 = .error msg →
      ∃ tr, navigateToMonth true t env = .ok (false, tr)) ∧
    (∀ lab cmi cy, env.label0 = .ok (some lab) → lab ≠ targetMonthYearStr t →
      parseLabel lab = (cmi, some cy) →
      ∀ msg tr,
      ((0 < monthDiffCalc t.year t.month.val cmi cy ∧
        runClicks env.clickNext .nextMonth 0
          (monthDiffCalc t.year t.month.val cmi cy).toNat = (tr, some msg)) ∨
       (monthDiffCalc t.year t.month.val cmi cy < 0 ∧
        runClicks env.clickPrev .prevMonth 0
          (-(monthDiffCalc t.year t.month.val cmi cy)).toNat = (tr, some msg))) →
      navigateToMonth true t env = .ok (false, tr)) := by
  refine ⟨⟨navBody t env, by simp [navigateToMonth]⟩, ?_, ?_, ?_⟩
  · intro msg h0
    simp [navigateToMonth, navBody, h0]
  · intro msg lab h0 hne hnext hprev h1
    rcases hp : parseLabel lab with ⟨cmi, ocy⟩
    rcases ocy with _ | cy
    · refine ⟨[], ?_⟩
      simp only [navigateToMonth, if_pos]
      unfold navBody
      rw [h0]
      simp only [jsOrString_some_empty, hp, Option.some.injEq]
      rw [if_neg hne]
      unfold finalCheck
      rw [h1]
    · refine ⟨(if 0 < monthDiffCalc t.year t.month.val cmi cy then
          List.replicate (monthDiffCalc t.year t.month.val cmi cy).toNat .nextMonth
        else if monthDiffCalc t.year t.month.val cmi cy < 0 then
          List.replicate (-(monthDiffCalc t.year t.month.val cmi cy)).toNat .prevMonth
        else []), ?_⟩
      simp only [navigateToMonth, if_pos]
      rw [navBody_parsed t env lab cmi cy h0 hne hp hnext hprev, finalCheck_error t _ h1]
  · intro lab cmi cy h0 hne hp msg tr hcase
    simp only [navigateToMonth, if_pos]
    unfold navBody
    rw [h0]
    simp only [jsOrString_some_empty, hp, Option.some.injEq]
    rw [if_neg hne]
    rcases hcase with ⟨hpos, hrun⟩ | ⟨hneg, hrun⟩
    · simp only [if_pos hpos, hrun]
    · simp only
        [if_neg (show ¬ 0 < monthDiffCalc t.year t.month.val cmi cy by omega),
         if_pos hneg, hrun]

theorem nav_exceptions_absorbed_w :
    navigateToMonth true ⟨2025, 0⟩ envThrowRead = .ok (false, []) ∧
    (∃ tr, navigateToMonth true ⟨2025, 2⟩ envThrowReRead = .ok (false, tr)) ∧
    navigateToMonth true ⟨2025, 2⟩ envThrowClickNext = .ok (false, []) ∧
    navigateToMonth true ⟨2024, 11⟩ envThrowClickPrev = .ok (false, []) :=
  ⟨(nav_exceptions_absorbed ⟨2025, 0⟩ envThrowRead).2.1 "read failed" rfl,
   (nav_exceptions_absorbed ⟨2025, 2⟩ envThrowReRead).2.2.1 "timeout" "January 2025"
     rfl (by decide) (fun i => rfl) (fun i => rfl) rfl,
   (nav_exceptions_absorbed ⟨2025, 2⟩ envThrowClickNext).2.2.2 "January 2025" 0 2025
     rfl (by decide) (by decide) "click failed" [] (Or.inl ⟨by decide, rfl⟩),
   (nav_exceptions_absorbed ⟨2024, 11⟩ envThrowClickPrev).2.2.2 "January 2025" 0 2025
     rfl (by decide) (by decide) "click failed" [] (Or.inr ⟨by decide, rfl⟩)⟩

/-- C10: when the parsed start date is strictly after the parsed end date
(the loop guard `day <= end` fails at once), `setDateRangeAvailability`
performs zero per-day calls and returns `true`, regardless of whether the
client is initialized. -/
theorem range_empty_vacuous_success (initialized : Bool) (body : CalDate → Bool)
    (s e : CalDate) (h : cdLe s e = false) :
    setDateRangeAvailability initialized body s e = .ok (true, []) := by
  unfold setDateRangeAvailability
  exact rangeLoopE_stop h

theorem range_empty_vacuous_success_w :
    setDateRangeAvailability false (fun _ => true) d20250302 d20250301 =
      .ok (true, []) :=
  range_empty_vacuous_success false (fun _ => true) d20250302 d20250301 (by decide)

/-- C1: with the current label parsed to month index `cmi` and year `cy`
and delta `d = monthDiffCalc`, `navigateToMonth` issues exactly `d`
"next month" actions and no "previous month" action when `d > 0`, exactly
`-d` "previous month" actions and no "next month" action when `d < 0`, and
no action at all when `d = 0` even though the label differed from the
target's formatted string. -/
theorem nav_click_counts (t : TargetDate) (env : NavEnv) (lab : String)
    (cmi cy : Int)
    (h0 : env.label0 = .ok (some lab))
    (hne : lab ≠ targetMonthYearStr t)
    (hparse : parseLabel lab = (cmi, some cy))
    (hnext : ∀ i, env.clickNext i = .ok ())
    (hprev : ∀ i, env.clickPrev i = .ok ()) :
    ∃ b tr, navigateToMonth true t env = .ok (b, tr) ∧
      tr.count .nextMonth =
        (if 0 < monthDiffCalc t.year t.month.val cmi cy then
          (monthDiffCalc t.year t.month.val cmi cy).toNat else 0) ∧
      tr.count .prevMonth =
        (if monthDiffCalc t.year t.month.val cmi cy < 0 then
          (-(monthDiffCalc t.year t.month.val cmi cy)).toNat else 0) ∧
      (monthDiffCalc t.year t.month.val cmi cy = 0 → tr = []) := by
  have heq := navBody_parsed t env lab cmi cy h0 hne hparse hnext hprev
  obtain ⟨b, hfc⟩ := finalCheck_trace t env
    (if 0 < monthDiffCalc t.year t.month.val cmi cy then
       List.replicate (monthDiffCalc t.year t.month.val cmi cy).toNat .nextMonth
     else if monthDiffCalc t.year t.month.val cmi cy < 0 then
       List.replicate (-(monthDiffCalc t.year t.month.val cmi cy)).toNat .prevMonth
     else [])
  refine ⟨b, _, by simp only [navigateToMonth, if_pos]; rw [heq, hfc], ?_, ?_, ?_⟩
  · rcases lt_trichotomy 0 (monthDiffCalc t.year t.month.val cmi cy) with hlt | hz | hgt
    · simp [hlt]
    · simp [show ¬ 0 < monthDiffCalc t.year t.month.val cmi cy by omega,
        show ¬ monthDiffCalc t.year t.month.val cmi cy < 0 by omega]
    · simp [show ¬ 0 < monthDiffCalc t.year t.month.val cmi cy by omega, hgt,
        List.count_replicate]
  · rcases lt_trichotomy 0 (monthDiffCalc t.year t.month.val cmi cy) with hlt | hz | hgt
    · simp [hlt, List.count_replicate,
        show ¬ monthDiffCalc t.year t.month.val cmi cy < 0 by omega]
    · simp [show ¬ 0 < monthDiffCalc t.year t.month.val cmi cy by omega,
        show ¬ monthDiffCalc t.year t.month.val cmi cy < 0 by omega]
    · simp [show ¬ 0 < monthDiffCalc t.year t.month.val cmi cy by omega, hgt]
  · intro hz
    simp [show ¬ 0 < monthDiffCalc t.year t.month.val cmi cy by omega,
      show ¬ monthDiffCalc t.year t.month.val cmi cy < 0 by omega]

theorem nav_click_counts_w :
    ∃ b tr, navigateToMonth true ⟨2025, 2⟩
        (envConst (some "January 2025") (some "March 2025")) = .ok (b, tr) ∧
      tr.count .nextMonth =
        (if 0 < monthDiffCalc 2025 (2 : Fin 12).val 0 2025 then
          (monthDiffCalc 2025 (2 : Fin 12).val 0 2025).toNat else 0) ∧
      tr.count .prevMonth =
        (if monthDiffCalc 2025 (2 : Fin 12).val 0 2025 < 0 then
          (-(monthDiffCalc 2025 (2 : Fin 12).val 0 2025)).toNat else 0) ∧
      (monthDiffCalc 2025 (2 : Fin 12).val 0 2025 = 0 → tr = []) :=
  nav_click_counts ⟨2025, 2⟩ (envConst (some "January 2025") (some "March 2025"))
    "January 2025" 0 2025 rfl (by decide) (by decide)
    (fun i => rfl) (fun i => rfl)

theorem finalCheck_some {env : NavEnv} {newLab : String} (t : TargetDate)
    (tr : List NavAction) (h1 : env.label1 = .ok (some newLab)) :
    finalCheck t env tr = (jsIncludes newLab (targetMonthName t), tr) := by
  unfold finalCheck
  rw [h1]

/-- C6: after its navigation actions, `navigateToMonth` succeeds iff the
re-read label contains the target month name; the returned boolean is
`jsIncludes newLab (targetMonthName t)`, an expression in which the target
year plays no role. -/
theorem nav_final_check_year_blind (t : TargetDate) (env : NavEnv)
    (lab newLab : String)
    (h0 : env.label0 = .ok (some lab))
    (hne : lab ≠ targetMonthYearStr t)
    (hnext : ∀ i, env.clickNext i = .ok ())
    (hprev : ∀ i, env.clickPrev i = .ok ())
    (h1 : env.label1 = .ok (some newLab)) :
    ∃ tr, navigateToMonth true t env =
      .ok (jsIncludes newLab (targetMonthName t), tr) := by
  rcases hp : parseLabel lab with ⟨cmi, ocy⟩
  rcases ocy with _ | cy
  · refine ⟨[], ?_⟩
    simp only [navigateToMonth, if_pos]
    unfold navBody
    rw [h0]
    simp only [jsOrString_some_empty, hp, Option.some.injEq]
    rw [if_neg hne, finalCheck_some t [] h1]
  · refine ⟨(if 0 < monthDiffCalc t.year t.month.val cmi cy then
        List.replicate (monthDiffCalc t.year t.month.val cmi cy).toNat .nextMonth
      else if monthDiffCalc t.year t.month.val cmi cy < 0 then
        List.replicate (-(monthDiffCalc t.year t.month.val cmi cy)).toNat .prevMonth
      else []), ?_⟩
    simp only [navigateToMonth, if_pos]
    rw [navBody_parsed t env lab cmi cy h0 hne hp hnext hprev, finalCheck_some t _ h1]

theorem nav_final_check_year_blind_w :
    ∃ tr, navigateToMonth true ⟨2025, 2⟩
        (envConst (some "January 2025") (some "March 2025")) =
      .ok (jsIncludes "March 2025" (targetMonthName ⟨2025, 2⟩), tr) :=
  nav_final_check_year_blind ⟨2025, 2⟩
    (envConst (some "January 2025") (some "March 2025")) "January 2025" "March 2025"
    rfl (by decide) (fun i => rfl) (fun i => rfl) rfl

theorem targetMonthYearStr_ne_empty (t : TargetDate) : "" ≠ targetMonthYearStr t := by
  intro h
  have hd := congrArg String.data h
  simp [targetMonthYearStr, String.data_append] at hd

/-- C8: an empty displayed label parses to month index `-1` and year `0`
(the `parseInt('0', 10)` default), and these sentinels flow unguarded into
the delta `(targetYear - 0) * 12 + (targetMonthIndex - (-1))`, which the
click loop then executes (for a non-negative target year the delta is
positive, so that many "next month" clicks are issued) instead of any error
being raised. -/
theorem nav_empty_label_corrupts (t : TargetDate) (env : NavEnv)
    (h0 : env.label0 = .ok (some ""))
    (hy : 0 ≤ t.year)
    (hnext : ∀ i, env.clickNext i = .ok ())
    (hprev : ∀ i, env.clickPrev i = .ok ()) :
    parseLabel "" = (-1, some 0) ∧
    monthDiffCalc t.year t.month.val (-1) 0 =
      (t.year - 0) * 12 + (t.month.val - (-1)) ∧
    ∃ b, navigateToMonth true t env =
      .ok (b, List.replicate (monthDiffCalc t.year t.month.val (-1) 0).toNat
        .nextMonth) := by
  refine ⟨rfl, by unfold monthDiffCalc; ring, ?_⟩
  have heq := navBody_parsed t env "" (-1) 0 h0 (targetMonthYearStr_ne_empty t) rfl
    hnext hprev
  have hm : (0 : Int) ≤ (t.month.val : Int) := Int.natCast_nonneg _
  have hpos : 0 < monthDiffCalc t.year t.month.val (-1) 0 := by
    unfold monthDiffCalc
    omega
  obtain ⟨b, hfc⟩ := finalCheck_trace t env
    (List.replicate (monthDiffCalc t.year t.month.val (-1) 0).toNat .nextMonth)
  refine ⟨b, ?_⟩
  simp only [navigateToMonth, if_pos]
  rw [heq]
  simp only [if_pos hpos]
  exact congrArg Except.ok hfc

theorem nav_empty_label_corrupts_w :
    parseLabel "" = (-1, some 0) ∧
    monthDiffCalc 0 (0 : Fin 12).val (-1) 0 =
      (0 - 0) * 12 + ((0 : Fin 12).val - (-1)) ∧
    ∃ b, navigateToMonth true ⟨0, 0⟩ (envConst (some "") (some "x")) =
      .ok (b, List.replicate (monthDiffCalc 0 (0 : Fin 12).val (-1) 0).toNat
        .nextMonth) :=
  nav_empty_label_corrupts ⟨0, 0⟩ (envConst (some "") (some "x")) rfl (by decide)
    (fun i => rfl) (fun i => rfl)

theorem setDateAvailability_ok (f : CalDate → Bool) :
    setDateAvailability true f = fun d => Except.ok (f d) := rfl

/-- C3: for start ≤ end, the per-day operation is invoked exactly once per
calendar day of the inclusive range, in strictly ascending day order (the
trace is strictly sorted and contains exactly the valid days between start
and end); concretely, 2025-02-27 … 2025-03-01 yields exactly the three days
27 Feb, 28 Feb, 1 Mar in that order. -/
theorem range_visits_each_day_once (f : CalDate → Bool) (s e : CalDate)
    (_hse : cdLe s e = true) (_hs : validB s = true) (_he : validB e = true) :
    ∃ r tr, setDateRangeAvailability true f s e = .ok (r, tr) ∧
      List.Pairwise (fun a b => cdLt a b = true) tr ∧
      (∀ d, validB d = true → (d ∈ tr ↔ (cdLe s d = true ∧ cdLe d e = true))) ∧
      (setDateRangeAvailability true f d20250227 d20250301).map Prod.snd =
        .ok [d20250227, d20250228, d20250301] := by
  refine ⟨true && (rangeTrace e s).all f, rangeTrace e s, ?_, ?_, ?_, ?_⟩
  · unfold setDateRangeAvailability
    rw [setDateAvailability_ok, rangeLoopE_pure]
  · exact rangeTrace_pairwise e s
  · intro d hd
    exact ⟨mem_rangeTrace_bounds, fun ⟨h1, h2⟩ => mem_rangeTrace_of_between hd h1 h2⟩
  · have htr : rangeTrace d20250301 d20250227 = [d20250227, d20250228, d20250301] := by
      rw [rangeTrace_step (by decide)]
      have e1 : nextDay d20250227 = d20250228 := rfl
      rw [e1, rangeTrace_step (by decide)]
      have e2 : nextDay d20250228 = d20250301 := rfl
      rw [e2, rangeTrace_step (by decide)]
      rw [rangeTrace_stop (by decide)]
    unfold setDateRangeAvailability
    rw [setDateAvailability_ok, rangeLoopE_pure, htr]
    rfl

theorem range_visits_each_day_once_w :
    ∃ r tr, setDateRangeAvailability true (fun _ => true) d20250227 d20250301 =
        .ok (r, tr) ∧
      List.Pairwise (fun a b => cdLt a b = true) tr ∧
      (∀ d, validB d = true →
        (d ∈ tr ↔ (cdLe d20250227 d = true ∧ cdLe d d20250301 = true))) ∧
      (setDateRangeAvailability true (fun _ => true) d20250227 d20250301).map
          Prod.snd = .ok [d20250227, d20250228, d20250301] :=
  range_visits_each_day_once (fun _ => true) d20250227 d20250301
    (by decide) (by decide) (by decide)

/-- C4: the aggregate flag is the conjunction of the per-day results over
the whole range (true iff every call succeeded); the set of attempted days
does not depend on the per-day outcomes, so a failing day never cuts the
iteration short, it only forces the aggregate to `false`. -/
theorem range_aggregate_no_short_circuit (f : CalDate → Bool) (s e : CalDate) :
    ∃ r tr, setDateRangeAvailability true f s e = .ok (r, tr) ∧
      r = tr.all f ∧
      (∀ g : CalDate → Bool, ∃ r2,
        setDateRangeAvailability true g s e = .ok (r2, tr)) ∧
      ((∃ d, d ∈ tr ∧ f d = false) → r = false) ∧
      (r = true ↔ ∀ d, d ∈ tr → f d = true) := by
  refine ⟨(rangeTrace e s).all f, rangeTrace e s, ?_, rfl, ?_, ?_, ?_⟩
  · unfold setDateRangeAvailability
    rw [setDateAvailability_ok, rangeLoopE_pure]
    simp
  · intro g
    refine ⟨(rangeTrace e s).all g, ?_⟩
    unfold setDateRangeAvailability
    rw [setDateAvailability_ok, rangeLoopE_pure]
    simp
  · rintro ⟨d, hd, hf⟩
    rw [Bool.eq_false_iff]
    intro hall
    have := List.all_eq_true.mp hall d hd
    simp [hf] at this
  · exact List.all_eq_true

theorem range_aggregate_no_short_circuit_w :
    ∃ r tr, setDateRangeAvailability true (fun _ => false) d20250227 d20250301 =
        .ok (r, tr) ∧
      r = tr.all (fun _ => false) ∧
      (∀ g : CalDate → Bool, ∃ r2,
        setDateRangeAvailability true g d20250227 d20250301 = .ok (r2, tr)) ∧
      ((∃ d, d ∈ tr ∧ (fun _ => false) d = false) → r = false) ∧
      (r = true ↔ ∀ d, d ∈ tr → (fun _ => false) d = true) :=
  range_aggregate_no_short_circuit (fun _ => false) d20250227 d20250301

/-- C9 as stated is false: `setDateRangeAvailability` on an uninitialized
client with an empty range (start strictly after end) raises nothing and
returns `true`, because the method has no `!this.page` check of its own and
the loop body that would throw is never entered. -/
theorem not_init_not_raised_cex :
    setDateRangeAvailability false (fun _ => false) d20250302 d20250301 =
      .ok (true, []) := by
  unfold setDateRangeAvailability
  exact rangeLoopE_stop (by decide)

/-- C9 (amended): operations guarded by the `!this.page` check
(`navigateToMonth`, `setDateAvailability`, …) raise the not-initialized
error immediately; `setDateRangeAvailability` has no check of its own and
surfaces that error through its first per-day call, hence exactly when the
range is non-empty (start ≤ end). -/
theorem not_init_raises (t : TargetDate) (env : NavEnv) (f : CalDate → Bool)
    (d s e : CalDate) (hse : cdLe s e = true) :
    navigateToMonth false t env = .error notInitializedMsg ∧
    setDateAvailability false f d = .error notInitializedMsg ∧
    setDateRangeAvailability false f s e = .error notInitializedMsg := by
  refine ⟨rfl, rfl, ?_⟩
  unfold setDateRangeAvailability
  rw [rangeLoopE_step hse]
  rfl

theorem not_init_raises_w :
    navigateToMonth false ⟨2025, 0⟩ (envConst (some "January 2025") none) =
      .error notInitializedMsg ∧
    setDateAvailability false (fun _ => true) d20250227 = .error notInitializedMsg ∧
    setDateRangeAvailability false (fun _ => true) d20250227 d20250228 =
      .error notInitializedMsg :=
  not_init_raises ⟨2025, 0⟩ (envConst (some "January 2025") none) (fun _ => true)
    d20250227 d20250227 d20250228 (by decide)
